import Mathlib

/-!
Verification of the Instagram CSV viewer's field-normalization and search
subsystem (file `InstagramViewer.tsx`).  The TypeScript component is shallowly
embedded below: its pure helpers (`tryParseJSON`, `cleanDescription`, the
inline `Number(x) || 0` coercions, `searchPosts`, the `handleFileUpload`
callbacks) become Lean functions over `List Char` / `String`, JavaScript's
`JSON.parse` and `Number(...)` builtins are modelled by executable parsers
over the same grammar, and the component state becomes an explicit record.
-/

/-! ## JavaScript character classes and string helpers -/

/-- JavaScript's WhiteSpace ∪ LineTerminator set (as used by `String.trim`,
the regex class `\s` and `Number(...)` input trimming); the Unicode space
members that matter for this data are included. -/
def isJsWs (c : Char) : Bool :=
  c == ' ' || c == '\t' || c == '\n' || c == '\x0b' || c == '\x0c' || c == '\r' ||
    c.toNat == 0xa0 || c.toNat == 0x1680 ||
    (0x2000 <= c.toNat && c.toNat <= 0x200a) ||
    c.toNat == 0x2028 || c.toNat == 0x2029 || c.toNat == 0x202f ||
    c.toNat == 0x205f || c.toNat == 0x3000 || c.toNat == 0xfeff

/-- Regex class `\w`: ASCII letters, digits and underscore. -/
def isWordChar (c : Char) : Bool :=
  ('a' ≤ c && c ≤ 'z') || ('A' ≤ c && c ≤ 'Z') || ('0' ≤ c && c ≤ '9') || c == '_'

/-- `String.prototype.trim` on a character list: strip `isJsWs` from both ends. -/
def jsTrimList (cs : List Char) : List Char :=
  ((cs.dropWhile isJsWs).reverse.dropWhile isJsWs).reverse

/-- `String.prototype.trim`. -/
def jsTrim (s : String) : String :=
  String.mk (jsTrimList s.toList)

/-- `String.prototype.toLowerCase` (ASCII case fold; the data is ASCII). -/
def toLowerStr (s : String) : String :=
  String.mk (s.toList.map Char.toLower)

/-- Whether `pat` is an initial segment of `cs`. -/
def listStartsWith : List Char → List Char → Bool
  | _, [] => true
  | [], _ :: _ => false
  | c :: cs, p :: ps => c == p && listStartsWith cs ps

/-- Whether `pat` occurs somewhere inside `cs`
(`String.prototype.includes` on character lists). -/
def jsIncludesL (cs pat : List Char) : Bool :=
  listStartsWith cs pat ||
    match cs with
    | [] => false
    | _ :: rest => jsIncludesL rest pat

/-- `String.prototype.includes`: `jsIncludes s pat` is `s.includes(pat)`. -/
def jsIncludes (s pat : String) : Bool :=
  jsIncludesL s.toList pat.toList

/-- Remove the first occurrence of `c`, if any
(`String.prototype.replace` with the one-character string pattern `c`
and an empty replacement). -/
def removeFirstChar (c : Char) : List Char → List Char
  | [] => []
  | x :: xs => if x == c then xs else x :: removeFirstChar c xs

/-- `s.replace('#', '')`: drops the first `'#'` wherever it occurs. -/
def removeFirstHash (s : String) : String :=
  String.mk (removeFirstChar '#' s.toList)

/-- `str.replace(/'/g, '"')`: every single quote becomes a double quote. -/
def replaceQuotes (s : String) : String :=
  String.mk (s.toList.map (fun c => if c == '\'' then '"' else c))

/-! ## The JavaScript JSON value model and `JSON.parse`

`JSON.parse` returns an arbitrary JSON value, not necessarily an array of
strings; the component's `string[]` annotation on `tryParseJSON` is not
checked at runtime, so the model keeps the full value. -/

/-- A parsed JSON value. -/
inductive JsonValue where
  | null
  | bool (b : Bool)
  | num (q : Rat)
  | str (s : String)
  | arr (items : List JsonValue)
  | obj (fields : List (String × JsonValue))

/-- JSON's whitespace (only these four, per ECMA-404). -/
def isJsonWsChar (c : Char) : Bool :=
  c == ' ' || c == '\t' || c == '\n' || c == '\r'

/-- Skip JSON whitespace. -/
def skipJsonWs (cs : List Char) : List Char :=
  cs.dropWhile isJsonWsChar

/-- Value of an ASCII hex digit. -/
def hexDigit (c : Char) : Option Nat :=
  if '0' ≤ c && c ≤ '9' then some (c.toNat - 48)
  else if 'a' ≤ c && c ≤ 'f' then some (c.toNat - 87)
  else if 'A' ≤ c && c ≤ 'F' then some (c.toNat - 55)
  else none

/-- ASCII decimal digit test. -/
def isDigitChar (c : Char) : Bool :=
  '0' ≤ c && c ≤ '9'

/-- Numeric value of a decimal digit string (most significant first). -/
def natOfDigits (ds : List Char) : Nat :=
  ds.foldl (fun acc c => acc * 10 + (c.toNat - 48)) 0

/-- Body of a JSON string literal, after the opening quote; returns the decoded
characters and the remainder after the closing quote. -/
def parseStringBody : Nat → List Char → List Char → Option (List Char × List Char)
  | 0, _, _ => none
  | _ + 1, [], _ => none
  | fuel + 1, c :: rest, acc =>
    if c == '"' then some (acc.reverse, rest)
    else if c == '\\' then
      match rest with
      | [] => none
      | e :: rest2 =>
        if e == '"' then parseStringBody fuel rest2 ('"' :: acc)
        else if e == '\\' then parseStringBody fuel rest2 ('\\' :: acc)
        else if e == '/' then parseStringBody fuel rest2 ('/' :: acc)
        else if e == 'b' then parseStringBody fuel rest2 ('\x08' :: acc)
        else if e == 'f' then parseStringBody fuel rest2 ('\x0c' :: acc)
        else if e == 'n' then parseStringBody fuel rest2 ('\n' :: acc)
        else if e == 'r' then parseStringBody fuel rest2 ('\r' :: acc)
        else if e == 't' then parseStringBody fuel rest2 ('\t' :: acc)
        else if e == 'u' then
          match rest2 with
          | h1 :: h2 :: h3 :: h4 :: rest3 =>
            match hexDigit h1, hexDigit h2, hexDigit h3, hexDigit h4 with
            | some a, some b, some c3, some d =>
              parseStringBody fuel rest3 (Char.ofNat (((a * 16 + b) * 16 + c3) * 16 + d) :: acc)
            | _, _, _, _ => none
          | _ => none
        else none
    else if c.toNat < 32 then none
    else parseStringBody fuel rest (c :: acc)

/-- Exponent part digits for a JSON number: optional sign, then at least one
digit; returns (negative?, value, remainder). -/
def parseJsonExp (cs : List Char) : Option (Bool × Nat × List Char) :=
  let (neg, cs1) : Bool × List Char :=
    match cs with
    | c :: rest => if c == '-' then (true, rest) else if c == '+' then (false, rest) else (false, cs)
    | [] => (false, cs)
  let ds := cs1.takeWhile isDigitChar
  if ds.isEmpty then none
  else some (neg, natOfDigits ds, cs1.drop ds.length)

/-- Collected parts of a decimal numeric literal assembled into a rational:
sign, integer digits, fraction digits, exponent.  Only `mkRat`, `Int` and
`Nat` arithmetic, so the value reduces in the kernel. -/
def decimalValue (neg : Bool) (ids fds : List Char) (eneg : Bool) (e : Nat) : Rat :=
  let mag : Int := Int.ofNat (natOfDigits (ids ++ fds))
  let m : Int := if neg then -mag else mag
  let net : Int := (if eneg then -(Int.ofNat e) else Int.ofNat e) - Int.ofNat fds.length
  if 0 ≤ net then mkRat (m * Int.ofNat (10 ^ net.toNat)) 1
  else mkRat m (10 ^ (-net).toNat)

/-- A JSON number literal: `-? (0 | [1-9][0-9]*) (. [0-9]+)? ([eE][+-]?[0-9]+)?`. -/
def parseJsonNumber (cs : List Char) : Option (Rat × List Char) :=
  let (neg, cs1) : Bool × List Char :=
    match cs with
    | c :: rest => if c == '-' then (true, rest) else (false, cs)
    | [] => (false, cs)
  match cs1 with
  | [] => none
  | c :: _ =>
    if !isDigitChar c then none
    else
      let ids := if c == '0' then ['0'] else cs1.takeWhile isDigitChar
      let rest1 := cs1.drop ids.length
      -- leading zeros are a syntax error in JSON: after a leading 0 no digit may follow
      if c == '0' && !((cs1.drop 1).takeWhile isDigitChar).isEmpty then none
      else
        let (fds, rest2) : List Char × List Char :=
          match rest1 with
          | d :: r2 =>
            if d == '.' then (r2.takeWhile isDigitChar, r2.drop (r2.takeWhile isDigitChar).length)
            else ([], rest1)
          | [] => ([], rest1)
        -- a dot must be followed by at least one digit
        if rest1.headD ' ' == '.' && fds.isEmpty then none
        else
          match rest2 with
          | e :: r3 =>
            if e == 'e' || e == 'E' then
              match parseJsonExp r3 with
              | some (eneg, n, r4) => some (decimalValue neg ids fds eneg n, r4)
              | none => none
            else some (decimalValue neg ids fds false 0, rest2)
          | [] => some (decimalValue neg ids fds false 0, rest2)

mutual

/-- One JSON value at the head of `cs` (no leading whitespace); returns the
value and the remainder. -/
def parseJsonValue : Nat → List Char → Option (JsonValue × List Char)
  | 0, _ => none
  | fuel + 1, cs =>
    match cs with
    | [] => none
    | c :: rest =>
      if c == '"' then
        match parseStringBody (fuel + 1) rest [] with
        | some (chars, r) => some (.str (String.mk chars), r)
        | none => none
      else if c == '[' then
        match skipJsonWs rest with
        | ']' :: r => some (.arr [], r)
        | cs1 => parseJsonArrayItems fuel cs1 []
      else if c == '{' then
        match skipJsonWs rest with
        | '}' :: r => some (.obj [], r)
        | cs1 => parseJsonObjItems fuel cs1 []
      else if c == 't' then
        match rest with
        | 'r' :: 'u' :: 'e' :: r => some (.bool true, r)
        | _ => none
      else if c == 'f' then
        match rest with
        | 'a' :: 'l' :: 's' :: 'e' :: r => some (.bool false, r)
        | _ => none
      else if c == 'n' then
        match rest with
        | 'u' :: 'l' :: 'l' :: r => some (.null, r)
        | _ => none
      else
        match parseJsonNumber cs with
        | some (q, r) => some (.num q, r)
        | none => none

/-- Comma-separated values up to the closing bracket; `acc` holds the items
parsed so far, reversed. -/
def parseJsonArrayItems : Nat → List Char → List JsonValue → Option (JsonValue × List Char)
  | 0, _, _ => none
  | fuel + 1, cs, acc =>
    match parseJsonValue fuel cs with
    | none => none
    | some (v, r) =>
      match skipJsonWs r with
      | ',' :: r2 => parseJsonArrayItems fuel (skipJsonWs r2) (v :: acc)
      | ']' :: r2 => some (.arr (v :: acc).reverse, r2)
      | _ => none

/-- Comma-separated `"key": value` pairs up to the closing brace. -/
def parseJsonObjItems : Nat → List Char → List (String × JsonValue) → Option (JsonValue × List Char)
  | 0, _, _ => none
  | fuel + 1, cs, acc =>
    match cs with
    | '"' :: rest =>
      match parseStringBody fuel rest [] with
      | none => none
      | some (key, r) =>
        match skipJsonWs r with
        | ':' :: r2 =>
          match parseJsonValue fuel (skipJsonWs r2) with
          | none => none
          | some (v, r3) =>
            match skipJsonWs r3 with
            | ',' :: r4 => parseJsonObjItems fuel (skipJsonWs r4) ((String.mk key, v) :: acc)
            | '}' :: r4 => some (.obj ((String.mk key, v) :: acc).reverse, r4)
            | _ => none
        | _ => none
    | _ => none

end

/-- `JSON.parse(s)`: `none` models a thrown `SyntaxError`.  The fuel is an
upper bound on parser steps; every recursive call follows a consumed
character, so `8 * length + 64` never runs out on real input. -/
def jsonParse (s : String) : Option JsonValue :=
  match parseJsonValue (8 * s.length + 64) (skipJsonWs s.toList) with
  | some (v, rest) => if (skipJsonWs rest).isEmpty then some v else none
  | none => none

/-- JavaScript truthiness of a parsed JSON value: `null`, `false`, `0` and
`""` are falsy; arrays and objects are always truthy. -/
def jsonFalsy : JsonValue → Bool
  | .null => true
  | .bool b => !b
  | .num q => q == 0
  | .str s => s == ""
  | .arr _ => false
  | .obj _ => false

/-- `v || []` on a parsed JSON value. -/
def jsOrEmptyArr (v : JsonValue) : JsonValue :=
  if jsonFalsy v then .arr [] else v

/-- `JsonValue.arr` test (the runtime shape `Array.isArray` would report). -/
def JsonValue.isArr : JsonValue → Bool
  | .arr _ => true
  | _ => false

theorem jsonParse_food_travel :
    jsonParse (replaceQuotes "['food','travel']") = some (.arr [.str "food", .str "travel"]) := by
  rfl

theorem jsonParse_not_json : jsonParse "not json" = none := by rfl

theorem jsonParse_42 : jsonParse "42" = some (.num (mkRat 42 1)) := by rfl

/-! ## `tryParseJSON` (the component's tag-field parser) -/

/-- The component's

```ts
const tryParseJSON = (str: string | undefined): string[] => {
  if (!str) return [];
  try { return JSON.parse(str.replace(/'/g, '"')); } catch { return []; }
};
```

`none` models an absent (`undefined`) argument; the empty string is the one
falsy string.  A successful parse returns whatever value `JSON.parse`
produced — the `string[]` annotation is not checked at runtime. -/
def tryParseJSON (str : Option String) : JsonValue :=
  match str with
  | none => .arr []
  | some s =>
    if s == "" then .arr []
    else
      match jsonParse (replaceQuotes s) with
      | some v => v
      | none => .arr []

/-! ## `Number(...)` and the count coercions -/

/-- A JavaScript number as `Number(string)` can produce it: `NaN`, an
infinity, or a finite value (modelled as an exact rational; the inputs in
play are small and exact in binary64 terms that matter here — zero tests and
sign). -/
inductive JsNumber where
  | nan
  | posInf
  | negInf
  | finite (q : Rat)
deriving DecidableEq

/-- Decimal magnitude of a `StringNumericLiteral`:
`[0-9]* ('.' [0-9]*)? ([eE][+-]?[0-9]+)?` with at least one digit, the whole
input consumed. -/
def parseDecimalMag (cs : List Char) : Option Rat :=
  let ids := cs.takeWhile isDigitChar
  let rest1 := cs.drop ids.length
  let (fds, rest2) : List Char × List Char :=
    match rest1 with
    | d :: r2 =>
      if d == '.' then (r2.takeWhile isDigitChar, r2.drop (r2.takeWhile isDigitChar).length)
      else ([], rest1)
    | [] => ([], rest1)
  if ids.isEmpty && fds.isEmpty then none
  else
    match rest2 with
    | [] => some (decimalValue false ids fds false 0)
    | e :: r3 =>
      if e == 'e' || e == 'E' then
        match parseJsonExp r3 with
        | some (eneg, n, r4) => if r4.isEmpty then some (decimalValue false ids fds eneg n) else none
        | none => none
      else none

/-- Unsigned non-decimal integer literals `0x…`, `0o…`, `0b…` (no sign
allowed before these in JavaScript). -/
def parseRadixMag (cs : List Char) : Option Rat :=
  let radixDigits (base : Nat) (valid : Char → Option Nat) (ds : List Char) : Option Rat :=
    let vals := ds.map valid
    if ds.isEmpty || vals.any Option.isNone then none
    else some (mkRat (Int.ofNat (vals.foldl (fun acc v => acc * base + v.getD 0) 0)) 1)
  match cs with
  | z :: x :: rest =>
    if z == '0' then
      if x == 'x' || x == 'X' then radixDigits 16 hexDigit rest
      else if x == 'o' || x == 'O' then
        radixDigits 8 (fun c => if '0' ≤ c && c ≤ '7' then some (c.toNat - 48) else none) rest
      else if x == 'b' || x == 'B' then
        radixDigits 2 (fun c => if c == '0' || c == '1' then some (c.toNat - 48) else none) rest
      else none
    else none
  | _ => none

/-- An unsigned numeric magnitude: `Infinity`, or a decimal literal. -/
def parseUnsignedMag (cs : List Char) : Option JsNumber :=
  if cs == "Infinity".toList then some .posInf
  else
    match parseDecimalMag cs with
    | some q => some (.finite q)
    | none => none

/-- `Number(x)` for `x : string | undefined`: trims JavaScript whitespace,
maps the empty remainder to `0`, otherwise reads a `StringNumericLiteral`
(optionally signed decimal or `Infinity`; unsigned `0x`/`0o`/`0b`), anything
else being `NaN`. -/
def jsStringToNumber (raw : Option String) : JsNumber :=
  match raw with
  | none => .nan
  | some s =>
    let cs := jsTrimList s.toList
    match cs with
    | [] => .finite 0
    | c :: rest =>
      if c == '+' then
        match parseUnsignedMag rest with
        | some n => n
        | none => .nan
      else if c == '-' then
        match parseUnsignedMag rest with
        | some .posInf => .negInf
        | some (.finite q) => .finite (-q)
        | _ => .nan
      else
        match parseRadixMag cs with
        | some q => .finite q
        | none =>
          match parseUnsignedMag cs with
          | some n => n
          | none => .nan

/-- JavaScript falsiness of a number: `NaN` and `±0`. -/
def jsNumberFalsy : JsNumber → Bool
  | .nan => true
  | .finite q => q.num == 0
  | _ => false

/-- The loader's inline `Number(post.likes) || 0` (and the same for
`num_comments`); `coerceCount` is the specification's name for it. -/
def coerceCount (raw : Option String) : JsNumber :=
  let n := jsStringToNumber raw
  if jsNumberFalsy n then .finite 0 else n

theorem coerceCount_42 : coerceCount (some "42") = .finite (mkRat 42 1) := by decide

theorem coerceCount_empty : coerceCount (some "") = .finite 0 := by decide

theorem coerceCount_undefined : coerceCount none = .finite 0 := by decide

theorem coerceCount_neg : coerceCount (some "-2.5") = .finite (mkRat (-5) 2) := by decide

/-! ## `cleanDescription` -/

/-- Whether the regex `/\s#\w+/` matches at position `i` of `cs`: a
whitespace character, then `'#'`, then at least one word character (`\w+`
needs one; more never changes whether a match starts here). -/
def hashtagMatchAt (cs : List Char) (i : Nat) : Bool :=
  match cs.drop i with
  | a :: b :: c :: _ => isJsWs a && b == '#' && isWordChar c
  | _ => false

/-- `text.search(/\s#\w+/)` as an `Option`: index of the first match, if any
(`-1` in JavaScript becomes `none`). -/
def hashtagSearch : List Char → Option Nat
  | [] => none
  | c :: rest =>
    if hashtagMatchAt (c :: rest) 0 then some 0
    else (hashtagSearch rest).map (· + 1)

/-- The component's

```ts
const cleanDescription = (text: string): string => {
  if (!text) return '';
  const hashtagIndex = text.search(/\s#\w+/);
  return hashtagIndex > -1 ? text.slice(0, hashtagIndex).trim() : text.trim();
};
```
-/
def cleanDescription (text : String) : String :=
  if text == "" then ""
  else
    match hashtagSearch text.toList with
    | some i => jsTrim (String.mk (text.toList.take i))
    | none => jsTrim text

theorem cleanDescription_example1 :
    cleanDescription "Great day! #sun #fun" = "Great day!" := by decide

theorem cleanDescription_example2 :
    cleanDescription "No tags here" = "No tags here" := by decide

theorem cleanDescription_example3 : cleanDescription "" = "" := by decide

/-! ## The record types and the Dataset Loader -/

/-- One raw CSV row as PapaParse's `header: true` mode delivers it: every
recognized column is text; a column absent from the file is `undefined`
(`none`).  `date_posted` is kept as a plain string with `""` standing for
both an empty cell and an absent column — the two are indistinguishable to
every use the component makes of the field (the `post.date_posted`
truthiness filter, and `new Date(...)` which is invalid on both). -/
structure RawInstagramPost where
  date_posted : String
  description : Option String
  hashtags : Option String
  url : Option String
  photos : Option String
  likes : Option String
  num_comments : Option String

/-- One processed post.  `hashtags` keeps the runtime JSON value (the
TypeScript `string[]` annotation is unchecked), `likes`/`num_comments` the
runtime number, `date_posted` the display string the date formatter
produced. -/
structure InstagramPost where
  date_posted : String
  description : Option String
  hashtags : JsonValue
  clean_description : String
  url : Option String
  photos : Option String
  likes : JsNumber
  num_comments : JsNumber

/-- `post.description || ''`. -/
def jsOrEmptyStr (s : Option String) : String :=
  match s with
  | none => ""
  | some v => v

/-- The row-to-post mapping from `handleFileUpload`'s `complete` callback.
`formatDate` stands for the host's
`new Date(raw).toLocaleDateString('de-DE', …)` — the one step whose value
comes from the browser's date engine and locale tables, on which no claim
depends; everything else is the component's own code. -/
def normalizeRow (formatDate : String → String) (post : RawInstagramPost) : InstagramPost :=
  { date_posted := formatDate post.date_posted
    description := post.description
    hashtags := jsOrEmptyArr (tryParseJSON post.hashtags)
    clean_description := cleanDescription (jsOrEmptyStr post.description)
    url := post.url
    photos := post.photos
    likes := coerceCount post.likes
    num_comments := coerceCount post.num_comments }

/-- The `complete` callback's dataset construction:

```ts
const processedData: InstagramPost[] = results.data
  .filter(post => post.date_posted)
  .map(post => ({ ... }));
```
-/
def processedData (formatDate : String → String) (rows : List RawInstagramPost) :
    List InstagramPost :=
  (rows.filter (fun post => post.date_posted != "")).map (normalizeRow formatDate)

/-! ## The Search Engine (`searchPosts`) -/

/-- `post.hashtags.some(tag => tag.toLowerCase().includes(needle))` for one
element list: a non-string tag makes `tag.toLowerCase()` throw a
`TypeError` (`Except.error`), short-circuiting like `Array.prototype.some`. -/
def someTagIncludes : List JsonValue → String → Except Unit Bool
  | [], _ => .ok false
  | .str s :: rest, needle =>
    if jsIncludes (toLowerStr s) needle then .ok true else someTagIncludes rest needle
  | _ :: _, _ => .error ()

/-- `post.hashtags.some(...)`: on a non-array value the method lookup itself
throws a `TypeError`. -/
def hashtagsSome (v : JsonValue) (needle : String) : Except Unit Bool :=
  match v with
  | .arr tags => someTagIncludes tags needle
  | _ => .error ()

/-- `Array.prototype.filter` with a predicate that can throw: the elements
are visited in order and the first exception aborts the whole call. -/
def filterE (p : InstagramPost → Except Unit Bool) : List InstagramPost → Except Unit (List InstagramPost)
  | [] => .ok []
  | x :: xs =>
    match p x with
    | .error e => .error e
    | .ok b =>
      match filterE p xs with
      | .error e => .error e
      | .ok rest => .ok (if b then x :: rest else rest)

/-- The component's

```ts
const searchPosts = () => {
  if (!searchTerm) { setSearchResults(posts); return; }
  const results = posts.filter(post => {
    if (isHashtagSearch) {
      return post.hashtags.some(tag =>
        tag.toLowerCase().includes(searchTerm.toLowerCase().replace('#', '')));
    } else {
      return post.clean_description.toLowerCase().includes(searchTerm.toLowerCase());
    }
  });
  setSearchResults(results);
};
```

The returned value is the results list that `setSearchResults` receives;
`Except.error` models an uncaught `TypeError` escaping the filter. -/
def searchPosts (posts : List InstagramPost) (searchTerm : String) (isHashtagSearch : Bool) :
    Except Unit (List InstagramPost) :=
  if searchTerm == "" then .ok posts
  else
    filterE
      (fun post =>
        if isHashtagSearch then
          hashtagsSome post.hashtags (removeFirstHash (toLowerStr searchTerm))
        else
          .ok (jsIncludes (toLowerStr post.clean_description) (toLowerStr searchTerm)))
      posts

/-! ## The upload state machine (`handleFileUpload`) -/

/-- The component state (`useState` slots). -/
structure ViewerState where
  posts : List InstagramPost
  searchTerm : String
  isHashtagSearch : Bool
  searchResults : List InstagramPost

/-- The outcome `Papa.parse` reports to `handleFileUpload`: the `complete`
callback with the parsed rows, or the `error` callback with a message. -/
inductive PapaOutcome where
  | complete (rows : List RawInstagramPost)
  | error (msg : String)

/-- `handleFileUpload`'s two callbacks, as one transition on the component
state plus the console log:

```ts
complete: (results) => { ...; setPosts(processedData); setSearchResults(processedData); },
error: (error) => { console.error('Error parsing CSV:', error); }
```
-/
def handleFileUpload (formatDate : String → String) (st : ViewerState)
    (console : List String) (outcome : PapaOutcome) : ViewerState × List String :=
  match outcome with
  | .complete rows =>
    let data := processedData formatDate rows
    ({ st with posts := data, searchResults := data }, console)
  | .error msg => (st, console ++ ["Error parsing CSV: " ++ msg])

/-! ## Helper lemmas -/

theorem toList_mk (cs : List Char) : (String.mk cs).toList = cs := rfl

theorem jsIncludesL_nil (cs : List Char) : jsIncludesL cs [] = true := by
  cases cs <;> simp [jsIncludesL, listStartsWith]

theorem jsIncludes_empty_pat (s : String) : jsIncludes s "" = true :=
  jsIncludesL_nil s.toList

theorem filterE_ok (pred : InstagramPost → Except Unit Bool) (f : InstagramPost → Bool)
    (posts : List InstagramPost) (h : ∀ p ∈ posts, pred p = .ok (f p)) :
    filterE pred posts = .ok (posts.filter f) := by
  induction posts with
  | nil => rfl
  | cons x xs ih =>
    have hx : pred x = .ok (f x) := h x (by simp)
    have hxs : ∀ p ∈ xs, pred p = .ok (f p) := fun p hp => h p (by simp [hp])
    rw [filterE, hx, ih hxs, List.filter_cons]

theorem someTagIncludes_strings (tags : List String) (needle : String) :
    someTagIncludes (tags.map JsonValue.str) needle
      = .ok (tags.any (fun t => jsIncludes (toLowerStr t) needle)) := by
  induction tags with
  | nil => rfl
  | cons t ts ih =>
    by_cases h : jsIncludes (toLowerStr t) needle = true
    · simp [someTagIncludes, h, List.any_cons]
    · simp only [Bool.not_eq_true] at h
      simp [someTagIncludes, h, ih, List.any_cons]

theorem hashtagMatchAt_nil (j : Nat) : hashtagMatchAt [] j = false := by
  simp [hashtagMatchAt, List.drop_nil]

theorem hashtagMatchAt_cons_succ (c : Char) (cs : List Char) (j : Nat) :
    hashtagMatchAt (c :: cs) (j + 1) = hashtagMatchAt cs j := rfl

theorem hashtagSearch_some (cs : List Char) (i : Nat) (h : hashtagSearch cs = some i) :
    hashtagMatchAt cs i = true ∧ ∀ j, j < i → hashtagMatchAt cs j = false := by
  induction cs generalizing i with
  | nil => simp [hashtagSearch] at h
  | cons c rest ih =>
    rw [hashtagSearch] at h
    by_cases h0 : hashtagMatchAt (c :: rest) 0 = true
    · rw [if_pos h0] at h
      cases h
      exact ⟨h0, fun j hj => absurd hj (Nat.not_lt_zero j)⟩
    · rw [if_neg h0] at h
      cases heq : hashtagSearch rest with
      | none => rw [heq] at h; simp at h
      | some i2 =>
        rw [heq] at h
        simp only [Option.map_some'] at h
        cases h
        obtain ⟨hm, hleast⟩ := ih i2 heq
        refine ⟨by rw [hashtagMatchAt_cons_succ]; exact hm, ?_⟩
        intro j hj
        cases j with
        | zero => exact Bool.eq_false_iff.mpr h0
        | succ j2 =>
          rw [hashtagMatchAt_cons_succ]
          exact hleast j2 (Nat.lt_of_succ_lt_succ hj)

theorem hashtagSearch_none (cs : List Char) (h : hashtagSearch cs = none) :
    ∀ j, hashtagMatchAt cs j = false := by
  induction cs with
  | nil => intro j; exact hashtagMatchAt_nil j
  | cons c rest ih =>
    rw [hashtagSearch] at h
    by_cases h0 : hashtagMatchAt (c :: rest) 0 = true
    · rw [if_pos h0] at h; cases h
    · rw [if_neg h0] at h
      intro j
      cases j with
      | zero => exact Bool.eq_false_iff.mpr h0
      | succ j2 =>
        rw [hashtagMatchAt_cons_succ]
        cases heq : hashtagSearch rest with
        | none => exact ih heq j2
        | some i2 => rw [heq] at h; simp at h

theorem drop_append_shift (pre cs : List Char) (j : Nat) :
    (pre ++ cs).drop (pre.length + j) = cs.drop j := by
  induction pre with
  | nil => simp
  | cons p ps ih =>
    have : ps.length + 1 + j = (ps.length + j) + 1 := by omega
    simp only [List.cons_append, List.length_cons, this, List.drop_succ_cons]
    exact ih

theorem drop_append_left (mid post : List Char) (j : Nat) (h : j ≤ mid.length) :
    (mid ++ post).drop j = mid.drop j ++ post := by
  induction mid generalizing j with
  | nil =>
    cases j with
    | zero => simp
    | succ j2 => simp at h
  | cons m ms ih =>
    cases j with
    | zero => simp
    | succ j2 =>
      simp only [List.cons_append, List.drop_succ_cons]
      exact ih j2 (by simpa using h)

theorem lt_length_of_drop_cons {cs t : List Char} {a : Char} {j : Nat}
    (h : cs.drop j = a :: t) : j < cs.length := by
  by_contra hn
  rw [List.drop_eq_nil_of_le (Nat.le_of_not_lt hn)] at h
  cases h

theorem hashtagMatchAt_of_infix (pre mid post : List Char) (j : Nat)
    (h : hashtagMatchAt mid j = true) :
    hashtagMatchAt (pre ++ mid ++ post) (pre.length + j) = true := by
  rw [hashtagMatchAt] at h
  cases hd : mid.drop j with
  | nil => rw [hd] at h; cases h
  | cons a t =>
    rw [hd] at h
    have hj : j ≤ mid.length := Nat.le_of_lt (lt_length_of_drop_cons hd)
    rw [hashtagMatchAt, List.append_assoc, drop_append_shift,
      drop_append_left mid post j hj, hd]
    cases t with
    | nil => cases h
    | cons b t2 =>
      cases t2 with
      | nil => cases h
      | cons c3 t3 => simpa using h

theorem jsTrimList_infix (cs : List Char) :
    ∃ pre post, cs = pre ++ jsTrimList cs ++ post := by
  refine ⟨cs.takeWhile isJsWs,
    (((cs.dropWhile isJsWs).reverse.takeWhile isJsWs)).reverse, ?_⟩
  conv_lhs => rw [← List.takeWhile_append_dropWhile isJsWs cs]
  rw [List.append_assoc]
  congr 1
  conv_lhs => rw [← List.reverse_reverse (cs.dropWhile isJsWs),
    ← List.takeWhile_append_dropWhile isJsWs (cs.dropWhile isJsWs).reverse,
    List.reverse_append]
  rfl

theorem hashtagMatchAt_take (cs : List Char) (n j : Nat)
    (h : hashtagMatchAt (cs.take n) j = true) : j < n ∧ hashtagMatchAt cs j = true := by
  have hfull : hashtagMatchAt ([] ++ cs.take n ++ cs.drop n) ([].length + j) = true :=
    hashtagMatchAt_of_infix [] (cs.take n) (cs.drop n) j h
  rw [List.nil_append, List.take_append_drop] at hfull
  simp only [List.length_nil, Nat.zero_add] at hfull
  refine ⟨?_, hfull⟩
  rw [hashtagMatchAt] at h
  cases hd : (cs.take n).drop j with
  | nil => rw [hd] at h; cases h
  | cons a t =>
    have := lt_length_of_drop_cons hd
    rw [List.length_take] at this
    exact Nat.lt_of_lt_of_le this (Nat.min_le_left _ _)

theorem jsTrimList_no_match (cs : List Char)
    (h : ∀ j, hashtagMatchAt cs j = false) :
    ∀ j, hashtagMatchAt (jsTrimList cs) j = false := by
  intro j
  cases hb : hashtagMatchAt (jsTrimList cs) j with
  | false => rfl
  | true =>
    obtain ⟨pre, post, hcs⟩ := jsTrimList_infix cs
    have := hashtagMatchAt_of_infix pre (jsTrimList cs) post j hb
    rw [← hcs] at this
    rw [h (pre.length + j)] at this
    cases this

theorem cleanDescription_no_match (text : String) (j : Nat) :
    hashtagMatchAt (cleanDescription text).toList j = false := by
  rw [cleanDescription]
  by_cases he : (text == "") = true
  · rw [if_pos he]
    exact hashtagMatchAt_nil j
  · rw [if_neg he]
    cases hs : hashtagSearch text.toList with
    | some i =>
      obtain ⟨hm, hleast⟩ := hashtagSearch_some text.toList i hs
      have hmid : ∀ k, hashtagMatchAt (text.toList.take i) k = false := by
        intro k
        cases hk : hashtagMatchAt (text.toList.take i) k with
        | false => rfl
        | true =>
          obtain ⟨hlt, hcs⟩ := hashtagMatchAt_take text.toList i k hk
          rw [hleast k hlt] at hcs
          cases hcs
      show hashtagMatchAt (jsTrim (String.mk (text.toList.take i))).toList j = false
      rw [jsTrim, toList_mk, toList_mk]
      exact jsTrimList_no_match (text.toList.take i) hmid j
    | none =>
      show hashtagMatchAt (jsTrim text).toList j = false
      rw [jsTrim, toList_mk]
      exact jsTrimList_no_match text.toList (hashtagSearch_none text.toList hs) j

/-! ## Concrete fixtures -/

/-- A row whose date cell is non-empty but is no calendar date-time. -/
def rowBadDate : RawInstagramPost :=
  { date_posted := "not a date", description := none, hashtags := none,
    url := none, photos := none, likes := none, num_comments := none }

/-- A row with one ordinary single-quoted tag. -/
def rowTagAbcd : RawInstagramPost :=
  { date_posted := "2024-01-01T10:00:00Z", description := none,
    hashtags := some "['abcd']", url := none, photos := none,
    likes := none, num_comments := none }

/-- A row whose tag cell is valid JSON but not an array. -/
def rowTag42 : RawInstagramPost :=
  { date_posted := "2024-01-01T10:00:00Z", description := none,
    hashtags := some "42", url := none, photos := none,
    likes := none, num_comments := none }

/-- The post loaded from `rowTagAbcd`. -/
def postAbcd : InstagramPost := normalizeRow id rowTagAbcd

/-- The post loaded from `rowTag42`. -/
def post42 : InstagramPost := normalizeRow id rowTag42

/-- A post whose cleaned description is `"hi"`. -/
def postHi : InstagramPost :=
  { date_posted := "01.01.2024, 10:00", description := some "hi",
    hashtags := .arr [], clean_description := "hi", url := none, photos := none,
    likes := .finite 0, num_comments := .finite 0 }

/-- A post whose cleaned description contains `"sun"` in lower case. -/
def postSunny : InstagramPost :=
  { date_posted := "01.01.2024, 10:00", description := some "a sunny day",
    hashtags := .arr [], clean_description := "a sunny day", url := none, photos := none,
    likes := .finite 0, num_comments := .finite 0 }

/-! ## Claim-side definitions

These follow the specification's words, for comparison against the code's
behaviour. -/

/-- From the spec's words: strip one leading `'#'` from the query (only a
leading one). -/
def stripLeadingHash (q : String) : String :=
  match q.toList with
  | c :: rest => if c == '#' then String.mk rest else q
  | [] => q

/-- From the spec's words: a post matches a tag query when some hashtag,
case-folded, contains the needle as a substring (non-string or non-array
values cannot match). -/
def claimTagMatch (p : InstagramPost) (needle : String) : Bool :=
  match p.hashtags with
  | .arr tags =>
    tags.any (fun t =>
      match t with
      | .str s => jsIncludes (toLowerStr s) needle
      | _ => false)
  | _ => false

/-- The single-quoted encoding of a tag list that the claims describe:
each tag wrapped in single quotes, comma-separated, bracketed, with no
escaping. -/
def encodeSingleQuoted (tags : List String) : String :=
  "[" ++ String.intercalate "," (tags.map (fun t => "'" ++ t ++ "'")) ++ "]"

/-! ## Shared facts about `tryParseJSON` -/

theorem tryParseJSON_parse_fail (s : String) (h : jsonParse (replaceQuotes s) = none) :
    tryParseJSON (some s) = .arr [] := by
  simp only [tryParseJSON]
  by_cases hs : (s == "") = true
  · rw [if_pos hs]
  · rw [if_neg hs, h]

theorem tryParseJSON_parse_ok (s : String) (v : JsonValue) (hs : s ≠ "")
    (h : jsonParse (replaceQuotes s) = some v) : tryParseJSON (some s) = v := by
  simp only [tryParseJSON, h]
  rw [if_neg (by simpa using hs)]

/-! ## Claim C1 -/

/-- Claim C1 counterexample: the loader keeps a row whose date cell holds the
non-empty, unparseable text `"not a date"` (the filter tests only
truthiness), while the claim's count of non-empty *and parseable* rows is `0`
for every reading of calendar-date parseability that rejects
`"not a date"`. -/
theorem c1_unparseable_date_retained :
    (processedData id [rowBadDate]).length = 1 ∧
      ∀ parseable : String → Bool, parseable "not a date" = false →
        ([rowBadDate].countP
          (fun post => post.date_posted != "" && parseable post.date_posted)) = 0 := by
  refine ⟨rfl, ?_⟩
  intro parseable hp
  simp [List.countP_cons, rowBadDate, hp]

/-- Claim C1 (amended): a row is dropped exactly when its date cell is the
empty string — unparseable non-empty dates are kept — so the loader's output
length equals the count of rows with a non-empty date cell, the retained rows
form a sublist (relative source order preserved), and each output post is the
normalization of its source row. -/
theorem c1_loader_length_and_order (formatDate : String → String)
    (rows : List RawInstagramPost) :
    (processedData formatDate rows).length
        = rows.countP (fun post => post.date_posted != "") ∧
      (rows.filter (fun post => post.date_posted != "")).Sublist rows ∧
      processedData formatDate rows
        = (rows.filter (fun post => post.date_posted != "")).map (normalizeRow formatDate) := by
  refine ⟨?_, List.filter_sublist rows, rfl⟩
  rw [processedData, List.length_map, List.countP_eq_length_filter]

/-! ## Claim C2 -/

/-- Claim C2 counterexample: `tryParseJSON("42")` is the number `42`, not the
empty array the claim requires of a non-array parse result. -/
theorem c2_nonarray_result_passes_through :
    tryParseJSON (some "42") = .num (mkRat 42 1) ∧
      (tryParseJSON (some "42")).isArr = false :=
  ⟨rfl, rfl⟩

/-- Claim C2 (amended): `parseTagList` returns the empty sequence on an
absent or empty input and on malformed JSON (after the quote substitution),
but a *successful* parse is returned whatever value it is — only the thrown
`SyntaxError` is mapped to the empty sequence, a non-array result passes
through; the claim's three examples hold. -/
theorem c2_tryParseJSON_behavior :
    tryParseJSON none = .arr [] ∧
      tryParseJSON (some "") = .arr [] ∧
      (∀ s : String, jsonParse (replaceQuotes s) = none → tryParseJSON (some s) = .arr []) ∧
      (∀ (s : String) (v : JsonValue), s ≠ "" → jsonParse (replaceQuotes s) = some v →
        tryParseJSON (some s) = v) ∧
      tryParseJSON (some "['food','travel']") = .arr [.str "food", .str "travel"] ∧
      tryParseJSON (some "not json") = .arr [] := by
  refine ⟨rfl, rfl, tryParseJSON_parse_fail, ?_, rfl, rfl⟩
  intro s v hs h
  exact tryParseJSON_parse_ok s v hs h

/-! ## Claim C10 -/

/-- Claim C10 counterexample: the single-quoted encoding of the one-tag list
whose tag text `"a','b"` contains single quotes becomes `["a","b"]` after the
quote substitution — well-formed JSON — so `parseTagList` returns the
two-element array, not the empty sequence. -/
theorem c10_substitution_can_stay_wellformed :
    encodeSingleQuoted ["a','b"] = "['a','b']" ∧
      jsIncludes "a','b" "'" = true ∧
      tryParseJSON (some (encodeSingleQuoted ["a','b"])) = .arr [.str "a", .str "b"] ∧
      tryParseJSON (some (encodeSingleQuoted ["a','b"])) ≠ .arr [] :=
  ⟨rfl, rfl, rfl, fun h => List.cons_ne_nil _ _ (JsonValue.arr.inj h)⟩

/-- Claim C10 (amended): when the quote substitution leaves a string that is
not valid JSON, `parseTagList` yields the empty sequence, discarding the
whole list rather than recovering part of it; this is what happens to
`"['don't stop']"`, whose in-text apostrophe corrupts the JSON.  (When the
substituted text happens to be valid JSON, as in the counterexample, the
parsed value is returned instead.) -/
theorem c10_malformed_substitution_yields_empty :
    (∀ s : String, jsonParse (replaceQuotes s) = none → tryParseJSON (some s) = .arr []) ∧
      encodeSingleQuoted ["don't stop"] = "['don't stop']" ∧
      jsonParse (replaceQuotes (encodeSingleQuoted ["don't stop"])) = none ∧
      tryParseJSON (some (encodeSingleQuoted ["don't stop"])) = .arr [] :=
  ⟨tryParseJSON_parse_fail, rfl, rfl, rfl⟩

/-! ## Claim C3 -/

/-- Claim C3 counterexample: for the query `"ab#cd"`, whose `'#'` is not
leading, the code removes that inner `'#'` (the first occurrence anywhere)
and so retains the loaded post with tag `"abcd"`, while the claim's rule —
strip only a leading `'#'` — matches no post. -/
theorem c3_inner_hash_is_stripped :
    searchPosts (processedData id [rowTagAbcd]) "ab#cd" true
        = .ok (processedData id [rowTagAbcd]) ∧
      (processedData id [rowTagAbcd]).filter
          (fun p => claimTagMatch p (toLowerStr (stripLeadingHash "ab#cd"))) = [] ∧
      (processedData id [rowTagAbcd]).length = 1 :=
  ⟨rfl, rfl, rfl⟩

/-- Claim C3 (amended): in tag mode with a non-empty query, over posts whose
`hashtags` value is an array of strings, search retains exactly the posts
having a hashtag that, case-folded, contains the query case-folded with its
*first* `'#'` removed wherever that occurs (for a leading `'#'` this is the
claimed stripping); and the `"#travel"`/`"travel"` query identity holds. -/
theorem c3_tag_search_characterization :
    (∀ (posts : List InstagramPost) (q : String) (tagsOf : InstagramPost → List String),
      (∀ p ∈ posts, p.hashtags = .arr ((tagsOf p).map .str)) → q ≠ "" →
      searchPosts posts q true
        = .ok (posts.filter (fun p =>
            (tagsOf p).any (fun t =>
              jsIncludes (toLowerStr t) (removeFirstHash (toLowerStr q)))))) ∧
      ∀ posts : List InstagramPost,
        searchPosts posts "#travel" true = searchPosts posts "travel" true := by
  constructor
  · intro posts q tagsOf htags hq
    rw [searchPosts, if_neg (by simpa using hq)]
    refine filterE_ok _ _ posts ?_
    intro p hp
    show hashtagsSome p.hashtags (removeFirstHash (toLowerStr q)) = _
    rw [htags p hp]
    exact someTagIncludes_strings (tagsOf p) (removeFirstHash (toLowerStr q))
  · intro posts
    rfl

/-- Instantiation of the amended C3 at a concrete dataset: the loaded post
with tag `"abcd"` is not retained by the query `"x"`. -/
theorem c3_tag_search_characterization_witness :
    searchPosts [postAbcd] "x" true
      = .ok ([postAbcd].filter (fun _ =>
          (["abcd"]).any (fun t =>
            jsIncludes (toLowerStr t) (removeFirstHash (toLowerStr "x"))))) :=
  c3_tag_search_characterization.1 [postAbcd] "x" (fun _ => ["abcd"])
    (by intro p hp; rw [List.mem_singleton] at hp; subst hp; rfl)
    (by decide)

/-! ## Claim C4 -/

/-- Claim C4 counterexample: the blank query `" "` is truthy in JavaScript,
so it is *not* special-cased: it filters the dataset (here to nothing, since
`"hi"` contains no space and the post has no tags), rather than returning the
full dataset. -/
theorem c4_blank_query_filters :
    searchPosts [postHi] " " false = .ok [] ∧
      searchPosts [postHi] " " true = .ok [] ∧
      [postHi] ≠ ([] : List InstagramPost) :=
  ⟨rfl, rfl, List.cons_ne_nil _ _⟩

/-- Claim C4 (amended): only the empty string — the one falsy string — makes
search return the full dataset unfiltered in original order, in both modes;
whitespace-only queries are ordinary queries. -/
theorem c4_empty_query_returns_all (posts : List InstagramPost) (mode : Bool) :
    searchPosts posts "" mode = .ok posts := rfl

/-! ## Claim C5 -/

/-- Claim C5: in text mode search returns exactly the posts whose
`clean_description`, case-folded, contains the query case-folded as a
substring, in original dataset order (the filter characterization); and the
query `"SUN"` matches a post whose cleaned description contains `"sun"`. -/
theorem c5_text_search_characterization :
    (∀ (posts : List InstagramPost) (q : String),
      searchPosts posts q false
        = .ok (posts.filter (fun p =>
            jsIncludes (toLowerStr p.clean_description) (toLowerStr q)))) ∧
      searchPosts [postSunny] "SUN" false = .ok [postSunny] := by
  constructor
  · intro posts q
    by_cases hq : q = ""
    · subst hq
      have hall : posts.filter (fun p =>
          jsIncludes (toLowerStr p.clean_description) (toLowerStr "")) = posts :=
        List.filter_eq_self.mpr (fun a _ => jsIncludes_empty_pat _)
      rw [hall]
      rfl
    · rw [searchPosts, if_neg (by simpa using hq)]
      exact filterE_ok _ _ posts (fun p _ => rfl)
  · rfl

/-! ## Claim C6 -/

/-- Claim C6: `cleanDescription` maps `""` to `""`; otherwise, when the
first match of whitespace-then-`'#'`-then-word exists (at the least matching
index), the result is the text before that match, trimmed; with no match the
result is the whole text trimmed; and the claim's three examples hold. -/
theorem c6_cleanDescription_spec :
    cleanDescription "Great day! #sun #fun" = "Great day!" ∧
      cleanDescription "No tags here" = "No tags here" ∧
      cleanDescription "" = "" ∧
      ∀ text : String,
        (∃ i, hashtagSearch text.toList = some i ∧
            hashtagMatchAt text.toList i = true ∧
            (∀ j, j < i → hashtagMatchAt text.toList j = false) ∧
            cleanDescription text = jsTrim (String.mk (text.toList.take i))) ∨
          ((∀ j, hashtagMatchAt text.toList j = false) ∧
            cleanDescription text = jsTrim text) := by
  refine ⟨by decide, by decide, by decide, ?_⟩
  intro text
  by_cases he : (text == "") = true
  · refine Or.inr ⟨?_, ?_⟩
    · have : text = "" := by simpa using he
      subst this
      exact fun j => hashtagMatchAt_nil j
    · rw [cleanDescription, if_pos he]
      have : text = "" := by simpa using he
      subst this
      rfl
  · cases hs : hashtagSearch text.toList with
    | some i =>
      obtain ⟨hm, hleast⟩ := hashtagSearch_some text.toList i hs
      exact Or.inl ⟨i, rfl, hm, hleast, by rw [cleanDescription, if_neg he, hs]⟩
    | none =>
      exact Or.inr ⟨hashtagSearch_none text.toList hs, by rw [cleanDescription, if_neg he, hs]⟩

/-! ## Claim C7 -/

/-- Claim C7: the count coercion yields `0` for `NaN` (unparseable text or
absent input) and for the empty string, while any non-zero parsed value — in
particular every negative or fractional one — passes through unchanged; the
three examples hold; and the loader fills `likes` and `num_comments` with
exactly this coercion. -/
theorem c7_coerceCount_spec :
    coerceCount (some "42") = .finite (mkRat 42 1) ∧
      coerceCount (some "") = .finite 0 ∧
      coerceCount none = .finite 0 ∧
      (∀ s : String, jsStringToNumber (some s) = .nan → coerceCount (some s) = .finite 0) ∧
      (∀ (s : String) (q : Rat), jsStringToNumber (some s) = .finite q →
        q < 0 ∨ q.den ≠ 1 → coerceCount (some s) = .finite q) ∧
      ∀ (formatDate : String → String) (row : RawInstagramPost),
        (normalizeRow formatDate row).likes = coerceCount row.likes ∧
          (normalizeRow formatDate row).num_comments = coerceCount row.num_comments := by
  refine ⟨by decide, by decide, by decide, ?_, ?_, fun formatDate row => ⟨rfl, rfl⟩⟩
  · intro s h
    simp only [coerceCount, h]
    rfl
  · intro s q h hcond
    have hq0 : q ≠ 0 := by
      rcases hcond with hneg | hden
      · exact ne_of_lt hneg
      · intro h0; rw [h0] at hden; exact hden rfl
    have hnum : ¬(q.num = 0) := fun hn => hq0 (Rat.num_eq_zero.mp hn)
    simp only [coerceCount, h, jsNumberFalsy]
    rw [if_neg (by simpa using hnum)]

/-- Instantiation of C7's pass-through clause at `"-2.5"`: the negative
fractional value `-5/2` survives the coercion. -/
theorem c7_coerceCount_spec_witness :
    coerceCount (some "-2.5") = .finite (mkRat (-5) 2) :=
  c7_coerceCount_spec.2.2.2.2.1 "-2.5" (mkRat (-5) 2) (by decide) (Or.inl (by decide))

/-! ## Claim C8 -/

theorem coerceCount_ne_nan (raw : Option String) : coerceCount raw ≠ .nan := by
  simp only [coerceCount]
  cases hn : jsStringToNumber raw with
  | nan => simp [jsNumberFalsy]
  | posInf => simp [jsNumberFalsy]
  | negInf => simp [jsNumberFalsy]
  | finite q =>
    by_cases h : (q.num == 0) = true <;> simp [jsNumberFalsy, h]

/-- Claim C8 counterexample: the loader accepts the row whose tag cell is
`"42"` and produces a post whose `hashtags` is the JSON number `42` — a
defined value, but not a sequence, against the claimed "defined hashtags
sequence". -/
theorem c8_nonarray_hashtags :
    (processedData id [rowTag42]).map (fun p => p.hashtags) = [.num (mkRat 42 1)] ∧
      (processedData id [rowTag42]).map (fun p => p.hashtags.isArr) = [false] :=
  ⟨rfl, rfl⟩

/-- Claim C8 (amended): every loaded post has a `hashtags` value that is
never undefined and never falsy — the empty array whenever the tag cell is
absent, empty, malformed, or parses to a falsy value, though a truthy
non-array JSON value passes through — numbers (never `NaN`) for `likes` and
`num_comments`, and a `clean_description` in which the extraction pattern
(whitespace, `'#'`, word character) matches nowhere. -/
theorem c8_post_invariants (formatDate : String → String) (rows : List RawInstagramPost)
    (p : InstagramPost) (hp : p ∈ processedData formatDate rows) :
    jsonFalsy p.hashtags = false ∧
      p.likes ≠ .nan ∧
      p.num_comments ≠ .nan ∧
      ∀ j, hashtagMatchAt p.clean_description.toList j = false := by
  rw [processedData] at hp
  obtain ⟨row, hrow, hmap⟩ := List.mem_map.mp hp
  subst hmap
  refine ⟨?_, coerceCount_ne_nan row.likes, coerceCount_ne_nan row.num_comments,
    fun j => cleanDescription_no_match _ j⟩
  show jsonFalsy (jsOrEmptyArr (tryParseJSON row.hashtags)) = false
  rw [jsOrEmptyArr]
  by_cases h : jsonFalsy (tryParseJSON row.hashtags) = true
  · rw [if_pos h]; rfl
  · rw [if_neg h]; exact Bool.eq_false_iff.mpr h

/-- Instantiation of C8 at the dataset loaded from `rowTag42`. -/
theorem c8_post_invariants_witness :
    jsonFalsy post42.hashtags = false ∧
      post42.likes ≠ .nan ∧
      post42.num_comments ≠ .nan ∧
      ∀ j, hashtagMatchAt post42.clean_description.toList j = false :=
  c8_post_invariants id [rowTag42] post42
    (by show post42 ∈ [post42]; exact List.mem_singleton.mpr rfl)

/-! ## Claim C9 -/

/-- Claim C9: when the CSV parse reports an error, `handleFileUpload` leaves
the component state — the loaded dataset and the displayed results included —
exactly as it was, and reports the error once on the console. -/
theorem c9_failed_load_preserves_state (formatDate : String → String) (st : ViewerState)
    (console : List String) (msg : String) :
    (handleFileUpload formatDate st console (.error msg)).1 = st ∧
      (handleFileUpload formatDate st console (.error msg)).1.posts = st.posts ∧
      (handleFileUpload formatDate st console (.error msg)).1.searchResults = st.searchResults ∧
      (handleFileUpload formatDate st console (.error msg)).2
        = console ++ ["Error parsing CSV: " ++ msg] :=
  ⟨rfl, rfl, rfl, rfl⟩
